import Mathlib

/-!
Verification of the core of `camera_stream.cpp` (an MJPEG camera stream
server) against its natural-language specification.

The C++ source is shallowly embedded: bytes are `Nat` (values 0..255 in
practice), strings sent on the wire are byte lists, and the stateful loops
(`handleClient`, `streamMJPEGVideo`, the monitor loop of
`runStreamingPipeline`) become pure functions over explicit per-iteration
environment inputs (directory snapshots, file-open results, send outcomes,
fork and liveness-probe results).
-/

namespace CameraStream

/-! ## Basic byte-string machinery -/

/-- Bytes of an ASCII string (each `Char` code point; all literals used by
the server are ASCII, matching the C++ byte strings). -/
def strBytes (s : String) : List Nat := s.data.map Char.toNat

/-- The two-byte line terminator `\r\n`. -/
def crlf : List Nat := [13, 10]

/-- Boolean list-prefix test (the leading-position comparison performed by
`std::string::find` at one offset). -/
def isPrefixOfB : List Nat → List Nat → Bool
  | [], _ => true
  | _ :: _, [] => false
  | a :: as, b :: bs => a == b && isPrefixOfB as bs

/-- Boolean contiguous-substring test: `containsSub needle hay` is true iff
`needle` occurs as a contiguous run inside `hay`. This is
`std::string::find(needle) != npos`. -/
def containsSub (needle : List Nat) : List Nat → Bool
  | [] => isPrefixOfB needle []
  | b :: bs => isPrefixOfB needle (b :: bs) || containsSub needle bs

/-! ## Request Router (`handleClient`, camera_stream.cpp lines 216-240)

`handleClient` does one `recv` of at most `sizeof(buffer) - 1 = 1023` bytes,
closes without responding when `bytes_received <= 0`, otherwise
NUL-terminates the buffer, builds `std::string request(buffer)` — which
stops at the first NUL byte among the received bytes — and routes on
`request.find`. -/

/-- The prefix of the received bytes up to (excluding) the first NUL byte:
the effect of `std::string request(buffer)` on a NUL-terminated char
buffer. -/
def cString (bs : List Nat) : List Nat := bs.takeWhile (fun b => b != 0)

/-- The three response behaviors of the server: the MJPEG stream response,
the HTML index page (`sendHTML`), and the 404 page (`send404`). -/
inductive Route
  | stream
  | index
  | notFound
deriving DecidableEq

/-- The route pattern `GET /stream` as bytes. -/
def streamPat : List Nat := strBytes "GET /stream"

/-- The route pattern `GET /` as bytes. -/
def rootPat : List Nat := strBytes "GET /"

/-- Route classification of `handleClient` (lines 228-237): the buffer is
read as a C string (stopping at the first NUL), then tested for the
substring `GET /stream`, else `GET /`, else not-found. -/
def classify (bs : List Nat) : Route :=
  let req := cString bs
  if containsSub streamPat req then Route.stream
  else if containsSub rootPat req then Route.index
  else Route.notFound

/-- `handleClient`'s routing, given the `recv` return value `n` and the raw
buffer contents: `n <= 0` closes the connection with no response (`none`,
lines 223-226); otherwise the first `n` received bytes are classified. -/
def handleClientRoute (n : Int) (buf : List Nat) : Option Route :=
  if n ≤ 0 then none else some (classify (buf.take n.toNat))

/-- `recv` into `char buffer[1024]` with length argument
`sizeof(buffer) - 1` (line 221): at most 1023 of the `k` available bytes of
the client's request `data` are delivered. -/
def recvBytes (data : List Nat) (k : Nat) : List Nat :=
  data.take (min k 1023)

/-! ## Multipart frame part (`streamMJPEGVideo`, lines 376-394)

Per frame the responder sends three pieces: the boundary/header block built
by string concatenation (with `BOUNDARY = "frame"` and
`std::to_string(frame_data.size())` for the length), then the raw JPEG
bytes, then `"\r\n"`. -/

/-- Decimal digit values of `n`, least significant first (the digits that
`std::to_string` renders). -/
def natToDecAux (n : Nat) : List Nat :=
  if h : n < 10 then [n]
  else n % 10 :: natToDecAux (n / 10)
decreasing_by
  exact Nat.div_lt_self (by omega) (by omega)

/-- ASCII decimal rendering of `n` (the bytes of `std::to_string(n)`). -/
def natToDec (n : Nat) : List Nat :=
  (natToDecAux n).reverse.map (fun d => d + 48)

/-- The fixed part of the boundary/header block that precedes the decimal
`Content-Length` value:
`"--" + BOUNDARY + "\r\nContent-Type: image/jpeg\r\nContent-Length: "`. -/
def headerFixed : List Nat :=
  strBytes "--frame" ++ crlf ++ strBytes "Content-Type: image/jpeg" ++ crlf ++
    strBytes "Content-Length: "

/-- The complete boundary/header block sent for a frame of `n` payload
bytes (line 377-380): `--frame\r\nContent-Type: image/jpeg\r\n`
`Content-Length: <n>\r\n\r\n`. -/
def framePartHeader (n : Nat) : List Nat :=
  headerFixed ++ natToDec n ++ crlf ++ crlf

/-- The three pieces sent for one multipart part, in send order
(lines 382-392): header block, raw JPEG payload, trailing `\r\n`. -/
def framePartPieces (payload : List Nat) : List (List Nat) :=
  [framePartHeader payload.length, payload, crlf]

/-- The bytes of one multipart part as they appear on the wire. -/
def partBytes (payload : List Nat) : List Nat :=
  framePartHeader payload.length ++ (payload ++ crlf)

/-- Recognize a fixed byte prefix, returning the remainder. -/
def stripPrefixBytes : List Nat → List Nat → Option (List Nat)
  | [], bs => some bs
  | _ :: _, [] => none
  | a :: as, b :: bs => if a == b then stripPrefixBytes as bs else none

/-- ASCII decimal digit test. -/
def isDigitByte (b : Nat) : Bool := decide (48 ≤ b ∧ b ≤ 57)

/-- Value of a run of ASCII decimal digits. -/
def decValue (ds : List Nat) : Nat :=
  ds.foldl (fun acc d => acc * 10 + (d - 48)) 0

/-- Parse a leading decimal number, returning its value and the rest. -/
def parseDecimal (bs : List Nat) : Option (Nat × List Nat) :=
  let ds := bs.takeWhile isDigitByte
  if ds.isEmpty then none
  else some (decValue ds, bs.dropWhile isDigitByte)

/-- Independent parser for one multipart part: the exact boundary/header
block with a decimal `Content-Length` `n`, then `n` payload bytes, then
`\r\n`; returns the declared length, the payload and the remaining bytes. -/
def parseFramePart (bs : List Nat) : Option (Nat × List Nat × List Nat) :=
  match stripPrefixBytes headerFixed bs with
  | none => none
  | some r1 =>
    match parseDecimal r1 with
    | none => none
    | some (n, r2) =>
      match stripPrefixBytes (crlf ++ crlf) r2 with
      | none => none
      | some r3 =>
        if n ≤ r3.length then
          match stripPrefixBytes crlf (r3.drop n) with
          | none => none
          | some r4 => some (n, r3.take n, r4)
        else none

/-! ## Stream Responder loop (`streamMJPEGVideo`, lines 357-408)

The loop keeps `last_file` (initially `""`), and each iteration while
`running`: gets the latest frame file name from the newest-first directory
listing (`getLatestFrame`, i.e. `ls -t ... | head -1`); if it is non-empty
and differs from `last_file`, opens it (which may fail if the file was
deleted concurrently), and if the file opened and its size is positive,
sends one multipart part and records the file as `last_file`; any failed
send breaks the loop. The environment of one iteration (directory snapshot,
open/read outcome, send outcome, the `running` flag value) is an
`IterInput`. -/

/-- A frame file in the output directory: its path and modification time. -/
structure FileEntry where
  name : String
  mtime : Nat
deriving DecidableEq

/-- Environment of one iteration of the stream loop. -/
structure IterInput where
  /-- Value of the `running` flag read at the loop head. -/
  runFlag : Bool
  /-- Directory snapshot as listed by `ls -t` (newest first). -/
  listing : List FileEntry
  /-- Result of opening and reading the latest file: `none` means the open
  failed (e.g. the file was deleted between listing and opening); `some bs`
  means the file opened with contents `bs` (possibly empty). -/
  content : Option (List Nat)
  /-- Whether the sends for this iteration's part succeed. -/
  sendOk : Bool
deriving DecidableEq

/-- One multipart part as sent: the frame file it came from and the JPEG
payload bytes. -/
structure Part where
  entry : FileEntry
  payload : List Nat
deriving DecidableEq

/-- `getLatestFrame` (lines 413-430): first line of
`ls -t <output>*.jpg | head -1`, or `""` when there is none. -/
def getLatestFrame (listing : List FileEntry) : String :=
  match listing.head? with
  | some e => e.name
  | none => ""

/-- One iteration of the stream loop body: `none` means the loop breaks
(flag cleared at the loop head, or a send failed); `some (op, l')` means
the loop continues with new `last_file` value `l'`, having emitted the
part `op` (if any). -/
def streamStep (last : String) (i : IterInput) : Option (Option Part × String) :=
  if i.runFlag = true then
    match i.listing.head? with
    | none => some (none, last)
    | some e =>
      if e.name = "" ∨ e.name = last then some (none, last)
      else
        match i.content with
        | none => some (none, last)
        | some payload =>
          if payload = [] then some (none, last)
          else if i.sendOk = true then some (some ⟨e, payload⟩, e.name)
          else none
  else none

/-- The stream loop: the sequence of multipart parts sent on one
connection, given the `last_file` state and the per-iteration environment
inputs. -/
def streamLoop : String → List IterInput → List Part
  | _, [] => []
  | last, i :: rest =>
    match streamStep last i with
    | none => []
    | some (none, l') => streamLoop l' rest
    | some (some p, l') => p :: streamLoop l' rest

/-- Comparison of the newest entries of two directory snapshots: the newest
mtime of the earlier snapshot does not exceed the newest mtime of the later
one (vacuously true when either snapshot is empty). This is the
shared-resource policy of the output directory: the transcoder only adds
new files and the Retention Sweeper only deletes old ones, so the newest
mtime shown by `ls -t` never regresses. -/
def headMtimeLe (i j : IterInput) : Bool :=
  match i.listing.head?, j.listing.head? with
  | some e, some f => decide (e.mtime ≤ f.mtime)
  | _, _ => true

/-! ## Retention Sweeper (`cleanOldFrames`, lines 432-436)

`ls -t <output>*.jpg | tail -n +11 | xargs -r rm -f`: from the newest-first
listing, every file from position 11 on is removed; the first 10 remain. -/

/-- `cleanOldFrames` on the newest-first listing: `(retained, deleted)`. -/
def cleanOldFrames (listing : List FileEntry) : List FileEntry × List FileEntry :=
  (listing.take 10, listing.drop 10)

/-- The listing is sorted newest-first (what `ls -t` produces). -/
def SortedByMtimeDesc (l : List FileEntry) : Prop :=
  List.Pairwise (fun a b => b.mtime ≤ a.mtime) l

/-! ## Pipeline Supervisor (`runStreamingPipeline`, lines 169-214)

`runStreamingPipeline` launches the camera command, sleeps, forks the
transcoder; on fork failure it returns (the supervisor thread exits). On
success it records the pid, sets `ffmpeg_running`, and monitors: every
second, while `running && ffmpeg_running`, it probes `kill(pid, 0)`; when
the probe fails it sleeps 2 s and re-enters the launch phase for a fresh
process. -/

/-- Supervisor state: `launch` (inside the starting phase, about to fork),
`monitor pid` (running: transcoder pid recorded and probed), `exited`
(the supervisor returned). -/
inductive PipeState
  | launch
  | monitor (pid : Nat)
  | exited
deriving DecidableEq

/-- True exactly on the `monitor` (running) state. -/
def PipeState.isMonitor : PipeState → Bool
  | .monitor _ => true
  | _ => false

/-- Environment of one supervisor step. -/
structure PipeInput where
  /-- `running && ffmpeg_running` as read at the monitor loop head. -/
  runFlag : Bool
  /-- `fork()` outcome during the launch phase: `some pid` on success,
  `none` on failure (`ffmpeg_pid < 0`, lines 196-198). -/
  forkResult : Option Nat
  /-- Outcome of the liveness probe `kill(pid, 0) == 0` (line 206). -/
  probeAlive : Bool
deriving DecidableEq

/-- One supervisor transition. Note that the restart path (probe failed →
re-enter launch, lines 206-211) does not consult the `running` flag before
forking again, matching the recursive call in the source. -/
def pipeStep (s : PipeState) (inp : PipeInput) : PipeState :=
  match s with
  | .launch =>
    match inp.forkResult with
    | some pid => .monitor pid
    | none => .exited
  | .monitor pid =>
    if inp.runFlag = true then
      if inp.probeAlive = true then .monitor pid else .launch
    else .exited
  | .exited => .exited

/-- Run the supervisor over a sequence of step environments. -/
def pipeRun (s : PipeState) (inps : List PipeInput) : PipeState :=
  inps.foldl pipeStep s

/-! ## Whole-connection handler (`handleClient` composed with the
responders), used for error containment. The handler receives the server's
`running` flag, performs its one `recv`, routes, responds, and always
closes its socket; it has no write access to the flag or any other
connection's state in the source, which the embedding records by threading
the flag through unchanged. -/

/-- Environment of one connection. -/
structure ConnInput where
  /-- Return value of the single `recv`. -/
  recvN : Int
  /-- Raw bytes deposited in the buffer by `recv`. -/
  recvBuf : List Nat
  /-- Whether the single send of the stream response headers (or of the
  index/404 body) succeeds; index/404 send failures are ignored. -/
  headerSendOk : Bool
  /-- Per-iteration environments for the stream loop, when routed there. -/
  iters : List IterInput

/-- Observable outcome of one connection. -/
structure ConnResult where
  /-- The server's `running` flag after the handler returns. -/
  runningOut : Bool
  /-- Whether the client socket was closed. -/
  closed : Bool
  /-- The selected route, `none` when the initial read failed. -/
  routed : Option Route
  /-- The multipart parts sent (empty except on the stream route). -/
  parts : List Part

/-- A sample newest-first listing of 12 frame files, for concrete
instantiations. -/
def sampleL : List FileEntry :=
  [⟨"f12", 12⟩, ⟨"f11", 11⟩, ⟨"f10", 10⟩, ⟨"f9", 9⟩, ⟨"f8", 8⟩, ⟨"f7", 7⟩,
   ⟨"f6", 6⟩, ⟨"f5", 5⟩, ⟨"f4", 4⟩, ⟨"f3", 3⟩, ⟨"f2", 2⟩, ⟨"f1", 1⟩]

/-- The full per-connection handler. -/
def handleConn (running : Bool) (c : ConnInput) : ConnResult :=
  if c.recvN ≤ 0 then ⟨running, true, none, []⟩
  else
    match classify (c.recvBuf.take c.recvN.toNat) with
    | Route.stream =>
      if c.headerSendOk then ⟨running, true, some Route.stream, streamLoop "" c.iters⟩
      else ⟨running, true, some Route.stream, []⟩
    | Route.index => ⟨running, true, some Route.index, []⟩
    | Route.notFound => ⟨running, true, some Route.notFound, []⟩

end CameraStream

namespace CameraStream

/-! ## Helper lemmas -/

theorem stripPrefixBytes_append (pre rest : List Nat) :
    stripPrefixBytes pre (pre ++ rest) = some rest := by
  induction pre with
  | nil => rfl
  | cons a as ih => simp [stripPrefixBytes, ih]

theorem natToDecAux_digits_lt (n : Nat) : ∀ d ∈ natToDecAux n, d < 10 := by
  induction n using Nat.strong_induction_on with
  | _ n ih =>
    rw [natToDecAux]
    by_cases h : n < 10
    · simp [h]
    · simp only [h, dite_false, List.mem_cons]
      intro d hd
      rcases hd with rfl | hd
      · omega
      · exact ih (n / 10) (Nat.div_lt_self (by omega) (by omega)) d hd

theorem natToDecAux_ne_nil (n : Nat) : natToDecAux n ≠ [] := by
  rw [natToDecAux]
  by_cases h : n < 10 <;> simp [h]

theorem decValue_foldl_natToDecAux (n : Nat) :
    ∀ acc : Nat,
      List.foldl (fun a d => a * 10 + (d - 48)) acc
        ((natToDecAux n).reverse.map (fun d => d + 48)) =
      acc * 10 ^ (natToDecAux n).length + n := by
  induction n using Nat.strong_induction_on with
  | _ n ih =>
    intro acc
    rw [natToDecAux]
    by_cases h : n < 10
    · simp only [h, dite_true, List.reverse_cons, List.reverse_nil, List.nil_append,
        List.map_cons, List.map_nil, List.foldl_cons, List.foldl_nil, List.length_cons,
        List.length_nil, pow_one]
      omega
    · simp only [h, dite_false, List.reverse_cons, List.map_append, List.map_cons,
        List.map_nil, List.foldl_append, List.foldl_cons, List.foldl_nil, List.length_cons]
      rw [ih (n / 10) (Nat.div_lt_self (by omega) (by omega)) acc]
      have hdm : 10 * (n / 10) + n % 10 = n := Nat.div_add_mod n 10
      have hd48 : n % 10 + 48 - 48 = n % 10 := by omega
      rw [hd48]
      calc (acc * 10 ^ (natToDecAux (n / 10)).length + n / 10) * 10 + n % 10
          = acc * (10 ^ (natToDecAux (n / 10)).length * 10) +
              (10 * (n / 10) + n % 10) := by ring
        _ = acc * 10 ^ ((natToDecAux (n / 10)).length + 1) + n := by
              rw [hdm, pow_succ]

theorem decValue_natToDec (n : Nat) : decValue (natToDec n) = n := by
  unfold decValue natToDec
  rw [decValue_foldl_natToDecAux]
  simp

theorem natToDec_all_digits (n : Nat) : ∀ d ∈ natToDec n, isDigitByte d = true := by
  intro d hd
  unfold natToDec at hd
  simp only [List.mem_map, List.mem_reverse] at hd
  obtain ⟨d0, hd0, rfl⟩ := hd
  have hlt := natToDecAux_digits_lt n d0 hd0
  unfold isDigitByte
  simp only [decide_eq_true_eq]
  omega

theorem natToDec_ne_nil (n : Nat) : natToDec n ≠ [] := by
  unfold natToDec
  simp [natToDecAux_ne_nil n]

theorem takeWhile_append_all (p : Nat → Bool) (l1 l2 : List Nat)
    (h : ∀ a ∈ l1, p a = true) :
    (l1 ++ l2).takeWhile p = l1 ++ l2.takeWhile p := by
  induction l1 with
  | nil => simp
  | cons a as ih =>
    have ha : p a = true := h a (by simp)
    rw [List.cons_append, List.takeWhile_cons, ha]
    simp only [ite_true, List.cons_append]
    rw [ih (fun b hb => h b (by simp [hb]))]

theorem dropWhile_append_all (p : Nat → Bool) (l1 l2 : List Nat)
    (h : ∀ a ∈ l1, p a = true) :
    (l1 ++ l2).dropWhile p = l2.dropWhile p := by
  induction l1 with
  | nil => simp
  | cons a as ih =>
    have ha : p a = true := h a (by simp)
    rw [List.cons_append, List.dropWhile_cons, ha]
    simp only [ite_true]
    rw [ih (fun b hb => h b (by simp [hb]))]

theorem parseDecimal_natToDec (n : Nat) (rest : List Nat) :
    parseDecimal (natToDec n ++ (13 :: rest)) = some (n, 13 :: rest) := by
  unfold parseDecimal
  rw [takeWhile_append_all _ _ _ (natToDec_all_digits n),
    dropWhile_append_all _ _ _ (natToDec_all_digits n)]
  have h13 : isDigitByte 13 = false := by decide
  rw [List.takeWhile_cons, List.dropWhile_cons, h13]
  simp [natToDec_ne_nil n, decValue_natToDec]

theorem parseFramePart_partBytes (payload rest : List Nat) :
    parseFramePart (partBytes payload ++ rest) =
      some (payload.length, payload, rest) := by
  have hassoc : partBytes payload ++ rest =
      headerFixed ++ (natToDec payload.length ++
        (13 :: (10 :: 13 :: 10 :: (payload ++ (13 :: 10 :: rest))))) := by
    simp [partBytes, framePartHeader, crlf]
  have hfour : (13 : Nat) :: 10 :: 13 :: 10 :: (payload ++ (13 :: 10 :: rest)) =
      (crlf ++ crlf) ++ (payload ++ (13 :: 10 :: rest)) := by
    simp [crlf]
  have hlen : payload.length ≤ (payload ++ (13 :: 10 :: rest)).length := by
    simp
  have htake : (payload ++ (13 :: 10 :: rest)).take payload.length = payload :=
    List.take_left payload _
  have hdrop : (payload ++ (13 :: 10 :: rest)).drop payload.length =
      13 :: 10 :: rest := List.drop_left payload _
  have hstrip : stripPrefixBytes crlf (13 :: 10 :: rest) = some rest := by
    simp [crlf, stripPrefixBytes]
  unfold parseFramePart
  rw [hassoc, stripPrefixBytes_append]
  simp only [parseDecimal_natToDec]
  simp only [hfour, stripPrefixBytes_append, hlen, if_true, htake, hdrop, hstrip]

/-! ## C1 theorems -/

/-- C1 counterexample: a buffer whose bytes contain the literal substring
`GET /stream` (after a leading NUL byte) is nevertheless answered with the
404 page, because `std::string request(buffer)` truncates at the first
NUL byte. -/
theorem classify_nul_hides_stream_route :
    containsSub streamPat ([0] ++ strBytes "GET /stream") = true ∧
    classify ([0] ++ strBytes "GET /stream") = Route.notFound := by
  constructor <;> decide

/-- C1 (amended): for every accepted connection from which at least one
byte is read, exactly one of the three responses is chosen, and the choice
is determined solely by the received bytes before the first NUL byte (the
buffer is interpreted as a C string): if that prefix contains `GET /stream`
the stream response is sent; else if it contains `GET /` the index page;
else the 404 page. -/
theorem classify_route_characterization (bs : List Nat) :
    (classify bs = Route.stream ↔ containsSub streamPat (cString bs) = true) ∧
    (classify bs = Route.index ↔
      (containsSub streamPat (cString bs) = false ∧
       containsSub rootPat (cString bs) = true)) ∧
    (classify bs = Route.notFound ↔
      (containsSub streamPat (cString bs) = false ∧
       containsSub rootPat (cString bs) = false)) := by
  unfold classify
  rcases h1 : containsSub streamPat (cString bs) <;>
    rcases h2 : containsSub rootPat (cString bs) <;>
      simp [h1, h2]

/-! ## C2 theorem -/

/-- C2: every multipart part emitted for a frame payload is exactly three
pieces in order — the boundary/header block declaring a `Content-Length`
equal to the byte count of the JPEG payload that follows, then the raw
payload bytes, then the two-byte terminator `\r\n` — certified by the
independent parser recovering from the wire bytes the declared length
(equal to the payload length), the payload itself, and the trailing
bytes. -/
theorem framePart_wellformed (payload rest : List Nat) :
    framePartPieces payload = [framePartHeader payload.length, payload, crlf] ∧
    (framePartPieces payload).foldr (· ++ ·) rest = partBytes payload ++ rest ∧
    parseFramePart (partBytes payload ++ rest) =
      some (payload.length, payload, rest) := by
  refine ⟨rfl, ?_, parseFramePart_partBytes payload rest⟩
  simp [framePartPieces, partBytes]

/-! ## Stream-loop lemmas -/

theorem streamStep_skip {last : String} {i : IterInput} {l' : String}
    (h : streamStep last i = some (none, l')) : l' = last := by
  unfold streamStep at h
  by_cases hrf : i.runFlag = true
  · rw [if_pos hrf] at h
    split at h
    · simp at h; exact h.symm
    · rename_i e hl
      by_cases hguard : e.name = "" ∨ e.name = last
      · rw [if_pos hguard] at h; simp at h; exact h.symm
      · rw [if_neg hguard] at h
        split at h
        · simp at h; exact h.symm
        · rename_i payload hc
          by_cases hpay : payload = []
          · rw [if_pos hpay] at h; simp at h; exact h.symm
          · rw [if_neg hpay] at h
            by_cases hsend : i.sendOk = true
            · rw [if_pos hsend] at h; simp at h
            · rw [if_neg hsend] at h; simp at h
  · rw [if_neg hrf] at h; simp at h

theorem streamStep_emit {last : String} {i : IterInput} {p : Part} {l' : String}
    (h : streamStep last i = some (some p, l')) :
    i.listing.head? = some p.entry ∧ p.payload ≠ [] ∧ l' = p.entry.name ∧
      p.entry.name ≠ last ∧ p.entry.name ≠ "" := by
  unfold streamStep at h
  by_cases hrf : i.runFlag = true
  · rw [if_pos hrf] at h
    split at h
    · simp at h
    · rename_i e hl
      by_cases hguard : e.name = "" ∨ e.name = last
      · rw [if_pos hguard] at h; simp at h
      · rw [if_neg hguard] at h
        split at h
        · simp at h
        · rename_i payload hc
          by_cases hpay : payload = []
          · rw [if_pos hpay] at h; simp at h
          · rw [if_neg hpay] at h
            by_cases hsend : i.sendOk = true
            · rw [if_pos hsend] at h
              simp only [Option.some.injEq, Prod.mk.injEq] at h
              obtain ⟨hp, hleq⟩ := h
              rw [not_or] at hguard
              subst hp
              exact ⟨hl, hpay, hleq.symm, hguard.2, hguard.1⟩
            · rw [if_neg hsend] at h; simp at h
  · rw [if_neg hrf] at h; simp at h

theorem streamStep_same_skip {last : String} {i : IterInput}
    (hrf : i.runFlag = true) (hsame : getLatestFrame i.listing = last) :
    streamStep last i = some (none, last) := by
  unfold getLatestFrame at hsame
  unfold streamStep
  cases hl : i.listing.head? with
  | none => simp [hrf, hl]
  | some e =>
    rw [hl] at hsame
    simp only at hsame
    simp [hrf, hl, hsame]

theorem streamLoop_chain_aux (inputs : List IterInput) :
    ∀ last : String,
      List.Chain' (fun p q : Part => p.entry.name ≠ q.entry.name)
        (streamLoop last inputs) ∧
      ∀ p : Part, (streamLoop last inputs).head? = some p →
        p.entry.name ≠ last := by
  induction inputs with
  | nil => intro last; simp [streamLoop]
  | cons i rest ih =>
    intro last
    cases hstep : streamStep last i with
    | none => simp [streamLoop, hstep]
    | some pr =>
      obtain ⟨op, l'⟩ := pr
      cases op with
      | none =>
        have hl : l' = last := streamStep_skip hstep
        subst hl
        simp only [streamLoop, hstep]
        exact ih _
      | some p =>
        obtain ⟨hhead, hpay, hl', hne, hne0⟩ := streamStep_emit hstep
        subst hl'
        simp only [streamLoop, hstep]
        constructor
        · rw [List.chain'_cons']
          refine ⟨?_, (ih p.entry.name).1⟩
          intro q hq
          exact Ne.symm ((ih p.entry.name).2 q (Option.mem_def.mp hq))
        · intro q hq
          simp only [List.head?_cons, Option.some.injEq] at hq
          subst hq
          exact hne

theorem streamLoop_mem_props (inputs : List IterInput) :
    ∀ (last : String) (p : Part), p ∈ streamLoop last inputs →
      p.payload ≠ [] ∧ ∃ i ∈ inputs, i.listing.head? = some p.entry := by
  induction inputs with
  | nil => intro last p hp; simp [streamLoop] at hp
  | cons i rest ih =>
    intro last p hp
    cases hstep : streamStep last i with
    | none => simp [streamLoop, hstep] at hp
    | some pr =>
      obtain ⟨op, l'⟩ := pr
      cases op with
      | none =>
        simp only [streamLoop, hstep] at hp
        obtain ⟨hpay, j, hj, hhead⟩ := ih l' p hp
        exact ⟨hpay, j, List.mem_cons_of_mem i hj, hhead⟩
      | some q =>
        simp only [streamLoop, hstep] at hp
        rcases List.mem_cons.mp hp with rfl | hp
        · obtain ⟨hhead, hpay, _, _, _⟩ := streamStep_emit hstep
          exact ⟨hpay, i, by simp, hhead⟩
        · obtain ⟨hpay, j, hj, hhead⟩ := ih l' p hp
          exact ⟨hpay, j, by simp [hj], hhead⟩

/-! ## C3 theorems -/

/-- C3: whenever `getLatestFrame` returns exactly the remembered last-sent
name (and the loop is still live), the iteration sends no multipart part
and the loop continues with the same state; consequently, on any
connection's whole run, no two consecutively sent parts come from the same
frame file. -/
theorem streamLoop_no_immediate_repeat :
    (∀ (last : String) (i : IterInput) (rest : List IterInput),
        i.runFlag = true → getLatestFrame i.listing = last →
        streamLoop last (i :: rest) = streamLoop last rest) ∧
    (∀ inputs : List IterInput,
        List.Chain' (fun p q : Part => p.entry.name ≠ q.entry.name)
          (streamLoop "" inputs)) := by
  constructor
  · intro last i rest hrf hsame
    have h := streamStep_same_skip hrf hsame
    simp [streamLoop, h]
  · intro inputs
    exact (streamLoop_chain_aux inputs "").1

/-- C3 witness: with last-sent name `f1.jpg` and a snapshot whose newest
file is again `f1.jpg`, the iteration is skipped. -/
theorem streamLoop_no_immediate_repeat_witness :
    streamLoop "f1.jpg" [⟨true, [⟨"f1.jpg", 5⟩], some [7], true⟩] =
      streamLoop "f1.jpg" [] :=
  streamLoop_no_immediate_repeat.1 "f1.jpg"
    ⟨true, [⟨"f1.jpg", 5⟩], some [7], true⟩ [] rfl rfl

/-! ## C5 theorems -/

theorem streamLoop_mtime_pairwise (inputs : List IterInput) :
    ∀ last : String,
      List.Pairwise (fun i j => headMtimeLe i j = true) inputs →
      List.Pairwise (fun p q : Part => p.entry.mtime ≤ q.entry.mtime)
        (streamLoop last inputs) := by
  induction inputs with
  | nil => intro last _; simp [streamLoop]
  | cons i rest ih =>
    intro last hpw
    rw [List.pairwise_cons] at hpw
    obtain ⟨hi, hrest⟩ := hpw
    cases hstep : streamStep last i with
    | none => simp [streamLoop, hstep]
    | some pr =>
      obtain ⟨op, l'⟩ := pr
      cases op with
      | none =>
        simp only [streamLoop, hstep]
        exact ih l' hrest
      | some p =>
        simp only [streamLoop, hstep]
        rw [List.pairwise_cons]
        refine ⟨?_, ih l' hrest⟩
        intro q hq
        obtain ⟨_, j, hj, hjhead⟩ := streamLoop_mem_props rest l' q hq
        have hih : i.listing.head? = some p.entry := (streamStep_emit hstep).1
        have hble := hi j hj
        unfold headMtimeLe at hble
        rw [hih, hjhead] at hble
        exact of_decide_eq_true hble

/-- C5: within one stream connection, the sequence of frames sent has
non-decreasing modification times — for each pair of consecutively sent
parts, the later part's mtime is not earlier than the earlier part's —
under the output directory's shared-resource policy, expressed as the
hypothesis that the newest mtime visible in the `ls -t` listing never
regresses across iterations (the transcoder only adds newer files and the
Retention Sweeper never deletes the newest ones). -/
theorem streamLoop_mtime_monotone (inputs : List IterInput)
    (h : List.Pairwise (fun i j => headMtimeLe i j = true) inputs) :
    List.Chain' (fun p q : Part => p.entry.mtime ≤ q.entry.mtime)
      (streamLoop "" inputs) :=
  (streamLoop_mtime_pairwise inputs "" h).chain'

/-- C5 witness: two iterations seeing frames with mtimes 1 then 2 produce
parts with non-decreasing mtimes. -/
theorem streamLoop_mtime_monotone_witness :
    List.Chain' (fun p q : Part => p.entry.mtime ≤ q.entry.mtime)
      (streamLoop "" [⟨true, [⟨"a.jpg", 1⟩], some [3], true⟩,
        ⟨true, [⟨"b.jpg", 2⟩], some [4], true⟩]) :=
  streamLoop_mtime_monotone
    [⟨true, [⟨"a.jpg", 1⟩], some [3], true⟩,
     ⟨true, [⟨"b.jpg", 2⟩], some [4], true⟩] (by decide)

/-! ## C8 theorem -/

/-- C8: in any live iteration whose latest frame file fails to open (for
example, deleted between listing and opening), nothing is sent, the
last-sent marker is unchanged, and the loop goes on processing the
remaining iterations exactly as if this iteration had not occurred. -/
theorem streamLoop_open_failure_skips (last : String) (listing : List FileEntry)
    (ok : Bool) (rest : List IterInput) :
    streamLoop last (⟨true, listing, none, ok⟩ :: rest) =
      streamLoop last rest := by
  cases hl : listing.head? with
  | none => simp [streamLoop, streamStep, hl]
  | some e =>
    by_cases hguard : e.name = "" ∨ e.name = last <;>
      simp [streamLoop, streamStep, hl, hguard]

/-! ## C10 theorems -/

/-- C10: an iteration whose latest file opens with zero bytes sends nothing
and leaves the last-sent marker unchanged; and every part actually emitted
on a connection has a payload of at least one byte, with the part's
declared `Content-Length` equal to that payload's exact byte count (as
recovered by the independent parser). -/
theorem streamLoop_no_empty_payload :
    (∀ (last : String) (listing : List FileEntry) (ok : Bool)
        (rest : List IterInput),
        streamLoop last (⟨true, listing, some [], ok⟩ :: rest) =
          streamLoop last rest) ∧
    (∀ (last : String) (inputs : List IterInput) (p : Part),
        p ∈ streamLoop last inputs →
        1 ≤ p.payload.length ∧
        parseFramePart (partBytes p.payload) =
          some (p.payload.length, p.payload, [])) := by
  constructor
  · intro last listing ok rest
    cases hl : listing.head? with
    | none => simp [streamLoop, streamStep, hl]
    | some e =>
      by_cases hguard : e.name = "" ∨ e.name = last <;>
        simp [streamLoop, streamStep, hl, hguard]
  · intro last inputs p hp
    obtain ⟨hpay, _⟩ := streamLoop_mem_props inputs last p hp
    refine ⟨List.length_pos.mpr hpay, ?_⟩
    have h := parseFramePart_partBytes p.payload []
    simpa using h

/-- C10 witness: the single part emitted for a one-byte frame has payload
length 1 and a matching declared `Content-Length`. -/
theorem streamLoop_no_empty_payload_witness :
    1 ≤ (Part.mk ⟨"a.jpg", 1⟩ [9]).payload.length ∧
    parseFramePart (partBytes (Part.mk ⟨"a.jpg", 1⟩ [9]).payload) =
      some ((Part.mk ⟨"a.jpg", 1⟩ [9]).payload.length,
        (Part.mk ⟨"a.jpg", 1⟩ [9]).payload, []) :=
  streamLoop_no_empty_payload.2 ""
    [⟨true, [⟨"a.jpg", 1⟩], some [9], true⟩] ⟨⟨"a.jpg", 1⟩, [9]⟩ (by decide)

/-! ## C4 theorems -/

/-- C4: the Retention Sweeper, acting on the newest-first listing, deletes
nothing when there are at most 10 files; with more than 10 files it retains
exactly 10 files which together with the deleted ones partition the
listing, and (the listing being sorted newest-first) every retained file is
at least as recently modified as every deleted one. -/
theorem cleanOldFrames_retention (listing : List FileEntry) :
    (listing.length ≤ 10 → (cleanOldFrames listing).2 = []) ∧
    (10 < listing.length →
      (cleanOldFrames listing).1.length = 10 ∧
      (cleanOldFrames listing).1 ++ (cleanOldFrames listing).2 = listing ∧
      (SortedByMtimeDesc listing →
        ∀ r ∈ (cleanOldFrames listing).1, ∀ d ∈ (cleanOldFrames listing).2,
          d.mtime ≤ r.mtime)) := by
  refine ⟨?_, ?_⟩
  · intro h
    simp only [cleanOldFrames]
    exact List.drop_eq_nil_of_le h
  · intro h
    refine ⟨?_, ?_, ?_⟩
    · simp only [cleanOldFrames, List.length_take]
      omega
    · simp [cleanOldFrames]
    · intro hs r hr d hd
      simp only [cleanOldFrames] at hr hd
      unfold SortedByMtimeDesc at hs
      have h2 : List.Pairwise (fun a b => b.mtime ≤ a.mtime)
          (listing.take 10 ++ listing.drop 10) := by
        rw [List.take_append_drop]
        exact hs
      rw [List.pairwise_append] at h2
      exact h2.2.2 r hr d hd

/-- C4 witness: on a sorted 12-file listing, 10 files are retained, the
retained and deleted files partition the listing, and every deleted file is
older than every retained one. -/
theorem cleanOldFrames_retention_witness :
    (cleanOldFrames sampleL).1.length = 10 ∧
    (cleanOldFrames sampleL).1 ++ (cleanOldFrames sampleL).2 = sampleL ∧
    (∀ r ∈ (cleanOldFrames sampleL).1, ∀ d ∈ (cleanOldFrames sampleL).2,
      d.mtime ≤ r.mtime) := by
  have h := (cleanOldFrames_retention sampleL).2 (by decide)
  exact ⟨h.1, h.2.1, h.2.2 (by unfold SortedByMtimeDesc; decide)⟩

/-! ## C6 theorems -/

/-- C6 counterexample: a failing liveness probe followed by a failed fork
in the re-entered starting phase leaves the supervisor exited — no new
process identifier is obtained and the pipeline never returns to running,
so the claim does not hold unconditionally. -/
theorem pipeRestart_fork_failure_counterexample :
    pipeRun (PipeState.monitor 7)
        [⟨true, none, false⟩, ⟨true, none, true⟩] = PipeState.exited ∧
    (pipeRun (PipeState.monitor 7)
        [⟨true, none, false⟩, ⟨true, none, true⟩]).isMonitor = false := by
  constructor <;> rfl

/-- C6 (amended): whenever the liveness probe of the monitored transcoder
pid fails while the server is running, and the fork performed by the
re-entered starting phase succeeds, the supervisor obtains the fresh
process identifier within that single restart cycle (no further probe of
the old pid intervenes) and is back in the running (monitoring) state. -/
theorem pipeRestart_recovers (pid newPid : Nat) (i1 i2 : PipeInput)
    (h1 : i1.runFlag = true) (h2 : i1.probeAlive = false)
    (h3 : i2.forkResult = some newPid) :
    pipeRun (PipeState.monitor pid) [i1, i2] = PipeState.monitor newPid := by
  simp [pipeRun, pipeStep, h1, h2, h3]

/-- C6 witness: pid 7 dies, the restart forks pid 42, and the supervisor
monitors 42. -/
theorem pipeRestart_recovers_witness :
    pipeRun (PipeState.monitor 7)
        [⟨true, none, false⟩, ⟨true, some 42, true⟩] =
      PipeState.monitor 42 :=
  pipeRestart_recovers 7 42 ⟨true, none, false⟩ ⟨true, some 42, true⟩
    rfl rfl rfl

/-! ## C7 theorems -/

/-- C7: the router's single read delivers at most 1024 bytes (in fact at
most `sizeof(buffer) - 1 = 1023`); a read returning zero or fewer bytes
closes the connection with no response; a positive read always classifies
the truncated prefix and responds — oversized requests are never rejected
outright. -/
theorem router_single_bounded_read (data buf : List Nat) (k : Nat) (n : Int) :
    (recvBytes data k).length ≤ 1024 ∧
    (n ≤ 0 → handleClientRoute n buf = none) ∧
    (0 < n → handleClientRoute n buf =
      some (classify (buf.take n.toNat))) := by
  refine ⟨?_, ?_, ?_⟩
  · simp only [recvBytes, List.length_take]
    omega
  · intro h
    simp [handleClientRoute, h]
  · intro h
    rw [handleClientRoute, if_neg (by omega)]

/-- C7 witness: a dead read gives no response; a 5-byte read of `GET /`
is classified on those 5 bytes. -/
theorem router_single_bounded_read_witness :
    handleClientRoute (-1) (strBytes "GET / HTTP/1.1") = none ∧
    handleClientRoute 5 (strBytes "GET / HTTP/1.1") =
      some (classify ((strBytes "GET / HTTP/1.1").take (Int.toNat 5))) :=
  ⟨(router_single_bounded_read [] (strBytes "GET / HTTP/1.1") 0 (-1)).2.1
      (by decide),
   (router_single_bounded_read [] (strBytes "GET / HTTP/1.1") 0 5).2.2
      (by decide)⟩

/-! ## C9 theorems -/

/-- C9: per-connection errors are contained. For every connection the
handler leaves the server's `running` flag exactly as it found it and
closes its socket; a failed initial read produces no response and no parts;
and a failed send in the stream loop (on an iteration that attempts a send)
terminates that connection's loop immediately, emitting nothing further. -/
theorem handleConn_error_containment :
    (∀ (running : Bool) (c : ConnInput),
        (handleConn running c).runningOut = running ∧
        (handleConn running c).closed = true) ∧
    (∀ (running : Bool) (c : ConnInput), c.recvN ≤ 0 →
        (handleConn running c).routed = none ∧
        (handleConn running c).parts = []) ∧
    (∀ (last : String) (e : FileEntry) (payload : List Nat) (i : IterInput)
        (rest : List IterInput),
        i.runFlag = true → i.listing.head? = some e → e.name ≠ "" →
        e.name ≠ last → i.content = some payload → payload ≠ [] →
        i.sendOk = false → streamLoop last (i :: rest) = []) := by
  refine ⟨?_, ?_, ?_⟩
  · intro running c
    by_cases h : c.recvN ≤ 0
    · simp [handleConn, h]
    · rcases hc : classify (c.recvBuf.take c.recvN.toNat) <;>
        by_cases hh : c.headerSendOk <;>
          simp [handleConn, h, hc, hh]
  · intro running c h
    simp [handleConn, h]
  · intro last e payload i rest hrf hhead hne0 hnelast hcont hpay hsend
    have hstep : streamStep last i = none := by
      unfold streamStep
      simp [hrf, hhead, hcont, hne0, hnelast, hpay, hsend]
    simp [streamLoop, hstep]

/-- C9 witness: a connection whose read returns 0 gets no response, and a
failed send on the first streamed frame ends the loop with no parts. -/
theorem handleConn_error_containment_witness :
    ((handleConn true ⟨0, [], true, []⟩).routed = none ∧
     (handleConn true ⟨0, [], true, []⟩).parts = []) ∧
    streamLoop "" [⟨true, [⟨"a.jpg", 1⟩], some [9], false⟩] = [] :=
  ⟨handleConn_error_containment.2.1 true ⟨0, [], true, []⟩ (by decide),
   handleConn_error_containment.2.2 "" ⟨"a.jpg", 1⟩ [9]
     ⟨true, [⟨"a.jpg", 1⟩], some [9], false⟩ [] rfl rfl (by decide)
     (by decide) rfl (by decide) rfl⟩

end CameraStream
